import Mathlib

/-!
Verification of the insig8 native-to-script bridge layer (macOS JSI bridge).

The repository sources are three headers:
  * `src/macos/insig8-macOS/lib/JSIUtils.h` — value-marshaling declarations
    (`jsiValueToNSString`, `jsiValueToDouble`, `jsiValueToNSDate`,
    `NSDateToJsiValue`, `NSStringToJsiValue`);
  * `src/macos/insig8-macOS/lib/Insig8Macros.h` — the `HOSTFN`/`JSIFN`
    macros that build host functions via
    `jsi::Function::createFromHostFunction(rt, PropNameID::forAscii(rt, name), 0, body)`;
  * `src/macos/insig8-macOS/lib/JSIBindings.hpp` — declaration of
    `install(runtime, callInvoker)`.

The corresponding `.mm` implementation files (marshaler bodies, binding
bodies, dispatcher) are not part of the sources; where a claim depends on
them, the definitions below are modelled from the specification and are
marked `Modelled from the spec:`.  The `HOSTFN` macro itself is present in
the sources and is embedded faithfully.
-/

namespace Insig8

/-- Modelled from the spec: an opaque handle to the script runtime
(`jsi::Runtime &`).  The marshaler takes it as an explicit parameter but a
pure conversion does not inspect it. -/
structure Runtime where
  rtId : Nat
deriving DecidableEq, Repr

/-- Modelled from the spec: a script-side double-precision number,
represented by its mathematical content: a finite value, a signed
infinity, or NaN.  Equality of this representation stands for bit-for-bit
equality of the underlying double. -/
inductive JSNumber where
  | finite (v : Rat)
  | inf (neg : Bool)
  | nan
deriving DecidableEq, Repr

/-- Whether a script number is NaN. -/
def JSNumber.isNaN : JSNumber → Bool
  | .nan => true
  | _ => false

/-- Whether a script number is finite. -/
def JSNumber.isFinite : JSNumber → Bool
  | .finite _ => true
  | _ => false

/-- Modelled from the spec: the script runtime's tagged value union
(`jsi::Value`): undefined, boolean, number, string, object, function. -/
inductive ScriptValue where
  | undefined
  | boolean (b : Bool)
  | number (n : JSNumber)
  | string (s : String)
  | object (oid : Nat)
  | function (fid : Nat)
deriving DecidableEq, Repr

/-- The bridge error taxonomy from the spec's error-handling design:
`TypeMismatch`, `ArityMismatch`, `NativeFailure`, `RuntimeUnavailable`. -/
inductive BridgeError where
  | typeMismatch
  | arityMismatch
  | nativeFailure
  | runtimeUnavailable
deriving DecidableEq, Repr

/-- Modelled from the spec: the host timestamp type (`NSDate*`), which
stores an offset from a reference date and therefore supports negative
epoch offsets (dates before 1970), but only finite ones. -/
structure NSDate where
  epochMillis : Rat
deriving DecidableEq, Repr

/-- Modelled from the spec: the body of `jsiValueToNSString` (declared in
`JSIUtils.h`, implementation absent).  Decoding to text fails with
`TypeMismatch` if the value is not string-like, and otherwise returns the
full text unchanged (so empty strings, non-ASCII content and embedded
null characters survive without truncation). -/
def jsiValueToNSString (rt : Runtime) (v : ScriptValue) : Except BridgeError String :=
  match v with
  | .string s => .ok s
  | _ => .error .typeMismatch

/-- Modelled from the spec: the body of `jsiValueToDouble` (declared in
`JSIUtils.h`, implementation absent).  Decoding to a number fails with
`TypeMismatch` if the value is not numeric; numeric values — including
NaN and the infinities — pass through unchanged, with no clamping or
coercion. -/
def jsiValueToDouble (rt : Runtime) (v : ScriptValue) : Except BridgeError JSNumber :=
  match v with
  | .number n => .ok n
  | _ => .error .typeMismatch

/-- Modelled from the spec: the body of `jsiValueToNSDate` (declared in
`JSIUtils.h`, implementation absent).  Accepts a numeric
epoch-millisecond representation; fails with `TypeMismatch` on
non-numeric or non-finite input.  Negative finite values are accepted
because the host timestamp type (`NSDate`) supports dates before the
epoch. -/
def jsiValueToNSDate (rt : Runtime) (v : ScriptValue) : Except BridgeError NSDate :=
  match v with
  | .number (.finite m) => .ok ⟨m⟩
  | _ => .error .typeMismatch

/-- Modelled from the spec: the body of `NSDateToJsiValue` (declared in
`JSIUtils.h`, implementation absent).  Total: every host timestamp
encodes to a numeric script value. -/
def NSDateToJsiValue (rt : Runtime) (d : NSDate) : ScriptValue :=
  .number (.finite d.epochMillis)

/-- Modelled from the spec: the body of `NSStringToJsiValue` (declared in
`JSIUtils.h`, implementation absent).  Total: every host string encodes
to a script string carrying the same text, non-ASCII content included. -/
def NSStringToJsiValue (rt : Runtime) (s : String) : ScriptValue :=
  .string s

/-- Modelled from the spec: number encoding (the `jsi::Value(double)`
constructor used by binding bodies; no named helper is declared in
`JSIUtils.h`).  Total and identity on the numeric content. -/
def doubleToJsiValue (rt : Runtime) (n : JSNumber) : ScriptValue :=
  .number n

/-- A script-callable host function object as built by
`jsi::Function::createFromHostFunction`: a property name, the declared
parameter count, and the native body receiving
`(rt, thisValue, arguments, count)`. -/
structure HostFunction where
  propName : String
  paramCount : Nat
  impl : Runtime → ScriptValue → List ScriptValue → Except BridgeError ScriptValue

/-- Embedding of `jsi::Function::createFromHostFunction` as used in
`Insig8Macros.h`: packages name, declared parameter count and body. -/
def createFromHostFunction (rt : Runtime) (name : String) (paramCount : Nat)
    (body : Runtime → ScriptValue → List ScriptValue → Except BridgeError ScriptValue) :
    HostFunction :=
  { propName := name, paramCount := paramCount, impl := body }

/-- The `HOSTFN(name, capture)` macro from `Insig8Macros.h`: it expands to
`jsi::Function::createFromHostFunction(rt, jsi::PropNameID::forAscii(rt, name), 0, body)`
— the declared parameter count is the literal `0`, independent of the
body. -/
def HOSTFN (rt : Runtime) (name : String)
    (body : Runtime → ScriptValue → List ScriptValue → Except BridgeError ScriptValue) :
    HostFunction :=
  createFromHostFunction rt name 0 body

/-- Modelled from the spec: the call protocol shared by the binding bodies
registered by `install` (implementation file absent; only `JSIBindings.hpp`
is in the sources).  A binding that requires `req` arguments first
validates the argument count, failing with `ArityMismatch` — and running
no native work — when fewer are supplied; otherwise it runs the native
implementation on exactly the first `req` arguments, ignoring extras.
The second component logs each native invocation's argument list, so
"no native side effect" is the empty log. -/
def invokeBinding (req : Nat)
    (native : List ScriptValue → Except BridgeError ScriptValue)
    (args : List ScriptValue) :
    Except BridgeError ScriptValue × List (List ScriptValue) :=
  if args.length < req then
    (.error .arityMismatch, [])
  else
    (native (args.take req), [args.take req])

/-- Modelled from the spec: the state of the call dispatcher built on the
`CallInvoker` handed to `install` (implementation absent).  `alive` is
whether the runtime is still up; `pending` is the queue of scheduled
invocations in submission order, each tagged `(path, id)` with the
submitting path; `executed` records, in execution order, the invocations
already run on the runtime's owning thread. -/
structure DispatcherState where
  alive : Bool
  pending : List (Nat × Nat)
  executed : List (Nat × Nat)
deriving DecidableEq, Repr

/-- Modelled from the spec: `schedule(invocation)` — enqueue a pending
invocation from path `p` with id `i`.  If the runtime has been torn down
the invocation is silently dropped and the state is unchanged. -/
def schedule (p i : Nat) (s : DispatcherState) : DispatcherState :=
  if s.alive then { s with pending := s.pending ++ [(p, i)] } else s

/-- Modelled from the spec: one execution step of the dispatcher on the
runtime's owning thread.  While the runtime is alive it may run the
earliest pending invocation of some path `p` (FIFO per submitting path;
invocations of other paths ahead of it in global submission order may be
overtaken, since no cross-path order is promised). -/
inductive DStep : DispatcherState → DispatcherState → Prop where
  | exec (s : DispatcherState) (p i : Nat) (l1 l2 : List (Nat × Nat))
      (halive : s.alive = true)
      (hpend : s.pending = l1 ++ (p, i) :: l2)
      (hfirst : ∀ x ∈ l1, x.1 ≠ p) :
      DStep s ⟨s.alive, l1 ++ l2, s.executed ++ [(p, i)]⟩

/-- Reachability under dispatcher execution steps. -/
abbrev DReach : DispatcherState → DispatcherState → Prop :=
  Relation.ReflTransGen DStep

/-- The invocations submitted from path `p`, in order, among a list of
tagged invocations. -/
def pathFilter (p : Nat) (l : List (Nat × Nat)) : List (Nat × Nat) :=
  l.filter (fun x => x.1 == p)

/-- The invocations of path `p` a state still owes or has run, in order:
executed ones first, then pending ones in submission order. -/
def pathSeq (p : Nat) (s : DispatcherState) : List (Nat × Nat) :=
  pathFilter p (s.executed ++ s.pending)

/-! ### Dispatcher lemmas -/

/-- A dispatcher step only fires while the runtime is alive. -/
theorem DStep.alive_of {s s' : DispatcherState} (h : DStep s s') : s.alive = true := by
  cases h with
  | exec p i l1 l2 halive hpend hfirst => exact halive

/-- A list with no invocation of path `p` contributes nothing to `pathFilter p`. -/
theorem pathFilter_eq_nil_of (p : Nat) (l : List (Nat × Nat))
    (h : ∀ x ∈ l, x.1 ≠ p) : pathFilter p l = [] := by
  apply List.filter_eq_nil_iff.mpr
  intro a ha
  simp [h a ha]

/-- One dispatcher step leaves every path's combined executed-then-pending
sequence unchanged: it merely moves that path's earliest pending invocation
across the executed/pending boundary. -/
theorem DStep.pathSeq_preserved (q : Nat) {s s' : DispatcherState} (h : DStep s s') :
    pathSeq q s' = pathSeq q s := by
  cases h with
  | exec p i l1 l2 halive hpend hfirst =>
    by_cases hpq : p = q
    · subst hpq
      have hl1 : List.filter (fun x => x.1 == p) l1 = [] := by
        apply List.filter_eq_nil_iff.mpr
        intro a ha
        simp [hfirst a ha]
      simp [pathSeq, pathFilter, hpend, List.filter_append, hl1]
    · have hpq' : (p == q) = false := beq_eq_false_iff_ne.mpr hpq
      simp [pathSeq, pathFilter, hpend, List.filter_append, hpq']

/-- `pathSeq` is invariant along any dispatcher run. -/
theorem DReach.pathSeq_eq (q : Nat) {s s' : DispatcherState} (h : DReach s s') :
    pathSeq q s' = pathSeq q s := by
  induction h with
  | refl => rfl
  | tail hab hbc ih => rw [DStep.pathSeq_preserved q hbc, ih]

/-- One dispatcher step permutes the combined executed/pending multiset. -/
theorem DStep.perm_preserved {s s' : DispatcherState} (h : DStep s s') :
    List.Perm (s'.executed ++ s'.pending) (s.executed ++ s.pending) := by
  cases h with
  | exec p i l1 l2 halive hpend hfirst =>
    show List.Perm ((s.executed ++ [(p, i)]) ++ (l1 ++ l2)) (s.executed ++ s.pending)
    rw [hpend, List.append_assoc]
    exact List.Perm.append_left _ (@List.perm_middle _ (p, i) l1 l2).symm

/-- The combined executed/pending multiset is invariant along any run. -/
theorem DReach.perm_invariant {s s' : DispatcherState} (h : DReach s s') :
    List.Perm (s'.executed ++ s'.pending) (s.executed ++ s.pending) := by
  induction h with
  | refl => exact List.Perm.refl _
  | tail hab hbc ih => exact (DStep.perm_preserved hbc).trans ih

/-- A torn-down dispatcher is inert: nothing is reachable but the state itself. -/
theorem DReach.eq_of_dead {s s' : DispatcherState} (h : DReach s s')
    (hdead : s.alive = false) : s' = s := by
  induction h with
  | refl => rfl
  | tail hab hbc ih =>
    have ha := DStep.alive_of hbc
    rw [ih, hdead] at ha
    simp at ha

/-! ### Claim theorems -/

/-- C1: decoding the encoding of any host text value yields that value:
`jsiValueToNSString rt (NSStringToJsiValue rt v) = ok v`, for every string,
the empty string and strings with non-ASCII or embedded-null content
included. -/
theorem C1_string_round_trip (rt : Runtime) (v : String) :
    jsiValueToNSString rt (NSStringToJsiValue rt v) = .ok v :=
  rfl

/-- C2: a registered binding called with fewer arguments than it requires
fails with `ArityMismatch` and runs no native work (empty effect log); a
call with at least the required count behaves exactly as a call with the
extra arguments dropped. -/
theorem C2_binding_arity (req : Nat)
    (native : List ScriptValue → Except BridgeError ScriptValue)
    (args : List ScriptValue) :
    (args.length < req →
      invokeBinding req native args = (.error .arityMismatch, [])) ∧
    (req ≤ args.length →
      invokeBinding req native args = invokeBinding req native (args.take req)) := by
  constructor
  · intro h
    simp [invokeBinding, h]
  · intro h
    have h1 : ¬args.length < req := not_lt.mpr h
    have h2 : ¬(args.take req).length < req := by
      rw [List.length_take]
      omega
    simp [invokeBinding, h1, h2, List.take_take]

/-- Witness for C2: a binding requiring two arguments rejects a one-argument
call with `ArityMismatch` and no native effect, and ignores a third extra
argument. -/
theorem C2_binding_arity_witness :
    invokeBinding 2 (fun xs => .ok (.number (.finite xs.length))) [.undefined]
      = (.error .arityMismatch, []) ∧
    invokeBinding 2 (fun xs => .ok (.number (.finite xs.length)))
        [.undefined, .boolean true, .string "extra"]
      = invokeBinding 2 (fun xs => .ok (.number (.finite xs.length)))
          [.undefined, .boolean true] :=
  ⟨(C2_binding_arity 2 _ [.undefined]).1 (by decide),
   (C2_binding_arity 2 _ [.undefined, .boolean true, .string "extra"]).2 (by decide)⟩

/-- C3: along any dispatcher run, invocations of the same submitting path
execute in their submission order (the executed ones always form a prefix
of that path's submission sequence); an invocation occurring once in the
initial queue has executed exactly once when the queue drains; and no
ordering holds across paths — from one state, runs reaching both
cross-path execution orders exist. -/
theorem C3_dispatcher_fifo (s0 : DispatcherState) :
    (∀ s' : DispatcherState, s0.executed = [] → DReach s0 s' → ∀ q : Nat,
      pathFilter q s'.executed <+: pathFilter q s0.pending) ∧
    (∀ (s' : DispatcherState) (x : Nat × Nat), s0.executed = [] → DReach s0 s' →
      s'.pending = [] → s0.pending.countP (fun y => decide (y = x)) = 1 →
      s'.executed.countP (fun y => decide (y = x)) = 1) ∧
    (∃ t0 tA tB : DispatcherState, DReach t0 tA ∧ DReach t0 tB ∧
      tA.pending = [] ∧ tB.pending = [] ∧ tA.executed ≠ tB.executed) := by
  refine ⟨?_, ?_, ?_⟩
  · intro s' hexec hreach q
    have hinv : pathSeq q s' = pathSeq q s0 := DReach.pathSeq_eq q hreach
    refine ⟨pathFilter q s'.pending, ?_⟩
    have h1 : pathFilter q s'.executed ++ pathFilter q s'.pending = pathSeq q s' := by
      simp [pathSeq, pathFilter, List.filter_append]
    rw [h1, hinv]
    simp [pathSeq, pathFilter, hexec]
  · intro s' x hexec hreach hpend hcount
    have hp := DReach.perm_invariant hreach
    rw [hexec, hpend] at hp
    simp only [List.append_nil, List.nil_append] at hp
    exact (hp.countP_eq _).trans hcount
  · refine ⟨⟨true, [(0, 0), (1, 1)], []⟩, ⟨true, [], [(0, 0), (1, 1)]⟩,
      ⟨true, [], [(1, 1), (0, 0)]⟩, ?_, ?_, rfl, rfl, by decide⟩
    · have h1 : DStep ⟨true, [(0, 0), (1, 1)], []⟩ ⟨true, [(1, 1)], [(0, 0)]⟩ :=
        DStep.exec _ 0 0 [] [(1, 1)] rfl rfl (by decide)
      have h2 : DStep ⟨true, [(1, 1)], [(0, 0)]⟩ ⟨true, [], [(0, 0), (1, 1)]⟩ :=
        DStep.exec _ 1 1 [] [] rfl rfl (by decide)
      exact Relation.ReflTransGen.tail (Relation.ReflTransGen.single h1) h2
    · have h1 : DStep ⟨true, [(0, 0), (1, 1)], []⟩ ⟨true, [(0, 0)], [(1, 1)]⟩ :=
        DStep.exec _ 1 1 [(0, 0)] [] rfl rfl (by decide)
      have h2 : DStep ⟨true, [(0, 0)], [(1, 1)]⟩ ⟨true, [], [(1, 1), (0, 0)]⟩ :=
        DStep.exec _ 0 0 [] [] rfl rfl (by decide)
      exact Relation.ReflTransGen.tail (Relation.ReflTransGen.single h1) h2

/-- Witness for C3: a concrete two-invocation run on path 0, drained in
submission order, with the prefix and exactly-once conclusions
instantiated. -/
theorem C3_dispatcher_fifo_witness :
    (pathFilter 0 (⟨true, [], [(0, 5), (0, 6)]⟩ : DispatcherState).executed <+:
      pathFilter 0 (⟨true, [(0, 5), (0, 6)], []⟩ : DispatcherState).pending) ∧
    (⟨true, [], [(0, 5), (0, 6)]⟩ : DispatcherState).executed.countP
      (fun y => decide (y = ((0 : Nat), (5 : Nat)))) = 1 := by
  have h1 : DStep ⟨true, [(0, 5), (0, 6)], []⟩ ⟨true, [(0, 6)], [(0, 5)]⟩ :=
    DStep.exec _ 0 5 [] [(0, 6)] rfl rfl (by decide)
  have h2 : DStep ⟨true, [(0, 6)], [(0, 5)]⟩ ⟨true, [], [(0, 5), (0, 6)]⟩ :=
    DStep.exec _ 0 6 [] [] rfl rfl (by decide)
  have hreach : DReach ⟨true, [(0, 5), (0, 6)], []⟩ ⟨true, [], [(0, 5), (0, 6)]⟩ :=
    Relation.ReflTransGen.tail (Relation.ReflTransGen.single h1) h2
  obtain ⟨hfifo, honce, _⟩ := C3_dispatcher_fifo ⟨true, [(0, 5), (0, 6)], []⟩
  exact ⟨hfifo _ rfl hreach 0, honce _ ((0 : Nat), (5 : Nat)) rfl hreach rfl (by decide)⟩

/-- C4: scheduling an invocation after runtime teardown is a no-op — the
state is unchanged, and from it no execution step can ever run the
invocation (nothing is reachable but the state itself). -/
theorem C4_schedule_after_teardown (s : DispatcherState) (p i : Nat)
    (hdead : s.alive = false) :
    schedule p i s = s ∧
    ∀ s' : DispatcherState, DReach (schedule p i s) s' → s' = s := by
  have hs : schedule p i s = s := by
    simp [schedule, hdead]
  refine ⟨hs, fun s' h => ?_⟩
  rw [hs] at h
  exact DReach.eq_of_dead h hdead

/-- Witness for C4: scheduling on a concrete torn-down dispatcher leaves it
unchanged. -/
theorem C4_schedule_after_teardown_witness :
    schedule 3 4 ⟨false, [(1, 2)], []⟩ = (⟨false, [(1, 2)], []⟩ : DispatcherState) :=
  (C4_schedule_after_teardown ⟨false, [(1, 2)], []⟩ 3 4 rfl).1

/-- C5: every finite number survives the encode/decode round trip
bit-for-bit, and NaN round-trips to a value that is itself NaN. -/
theorem C5_number_round_trip (rt : Runtime) :
    (∀ q : Rat,
      jsiValueToDouble rt (doubleToJsiValue rt (.finite q)) = .ok (.finite q)) ∧
    ∃ m : JSNumber,
      jsiValueToDouble rt (doubleToJsiValue rt .nan) = .ok m ∧ m.isNaN = true :=
  ⟨fun _ => rfl, ⟨.nan, rfl, rfl⟩⟩

/-- C6: decoding to a number fails with `TypeMismatch` exactly on
non-numeric values, and returns numeric values unchanged — NaN and the
infinities included, with no clamping or coercion. -/
theorem C6_decode_number_total (rt : Runtime) (v : ScriptValue) :
    ((∀ n : JSNumber, v ≠ .number n) →
      jsiValueToDouble rt v = .error .typeMismatch) ∧
    (∀ n : JSNumber, v = .number n → jsiValueToDouble rt v = .ok n) := by
  constructor
  · intro h
    cases v with
    | number n => exact absurd rfl (h n)
    | undefined => rfl
    | boolean b => rfl
    | string s => rfl
    | object oid => rfl
    | function fid => rfl
  · intro n hv
    subst hv
    rfl

/-- Witness for C6: a string value is rejected with `TypeMismatch`; NaN and
negative infinity pass through unchanged. -/
theorem C6_decode_number_total_witness :
    jsiValueToDouble ⟨0⟩ (.string "x") = .error .typeMismatch ∧
    jsiValueToDouble ⟨0⟩ (.number .nan) = .ok .nan ∧
    jsiValueToDouble ⟨0⟩ (.number (.inf true)) = .ok (.inf true) :=
  ⟨(C6_decode_number_total ⟨0⟩ (.string "x")).1 (fun n h => nomatch h),
   (C6_decode_number_total ⟨0⟩ (.number .nan)).2 .nan rfl,
   (C6_decode_number_total ⟨0⟩ (.number (.inf true))).2 (.inf true) rfl⟩

/-- C7: decoding to text fails with `TypeMismatch` exactly on non-string
values, and returns the full text of a string value untruncated. -/
theorem C7_decode_string_total (rt : Runtime) (v : ScriptValue) :
    ((∀ s : String, v ≠ .string s) →
      jsiValueToNSString rt v = .error .typeMismatch) ∧
    (∀ s : String, v = .string s → jsiValueToNSString rt v = .ok s) := by
  constructor
  · intro h
    cases v with
    | string s => exact absurd rfl (h s)
    | undefined => rfl
    | boolean b => rfl
    | number n => rfl
    | object oid => rfl
    | function fid => rfl
  · intro s hv
    subst hv
    rfl

/-- Witness for C7: a numeric value is rejected with `TypeMismatch`; the
empty string and a string with an embedded null and non-ASCII content are
returned in full. -/
theorem C7_decode_string_total_witness :
    jsiValueToNSString ⟨0⟩ (.number .nan) = .error .typeMismatch ∧
    jsiValueToNSString ⟨0⟩ (.string "") = .ok "" ∧
    jsiValueToNSString ⟨0⟩ (.string "a\x00é") = .ok "a\x00é" :=
  ⟨(C7_decode_string_total ⟨0⟩ (.number .nan)).1 (fun s h => nomatch h),
   (C7_decode_string_total ⟨0⟩ (.string "")).2 "" rfl,
   (C7_decode_string_total ⟨0⟩ (.string "a\x00é")).2 "a\x00é" rfl⟩

/-- C8: decoding to a timestamp accepts any finite numeric
epoch-millisecond value — negative ones included, since the host
timestamp type supports dates before the epoch — and fails with
`TypeMismatch` on non-numeric or non-finite input. -/
theorem C8_decode_date (rt : Runtime) (v : ScriptValue) :
    ((∀ n : JSNumber, v ≠ .number n) →
      jsiValueToNSDate rt v = .error .typeMismatch) ∧
    (∀ n : JSNumber, n.isFinite = false → v = .number n →
      jsiValueToNSDate rt v = .error .typeMismatch) ∧
    (∀ q : Rat, v = .number (.finite q) → jsiValueToNSDate rt v = .ok ⟨q⟩) := by
  refine ⟨?_, ?_, ?_⟩
  · intro h
    cases v with
    | number n => exact absurd rfl (h n)
    | undefined => rfl
    | boolean b => rfl
    | string s => rfl
    | object oid => rfl
    | function fid => rfl
  · intro n hn hv
    subst hv
    cases n with
    | finite q => simp [JSNumber.isFinite] at hn
    | inf neg => rfl
    | nan => rfl
  · intro q hv
    subst hv
    rfl

/-- Witness for C8: a negative epoch value decodes to the matching date;
NaN, infinity and a non-numeric value are rejected with `TypeMismatch`. -/
theorem C8_decode_date_witness :
    jsiValueToNSDate ⟨0⟩ (.number (.finite (-5))) = .ok ⟨-5⟩ ∧
    jsiValueToNSDate ⟨0⟩ (.number .nan) = .error .typeMismatch ∧
    jsiValueToNSDate ⟨0⟩ (.number (.inf true)) = .error .typeMismatch ∧
    jsiValueToNSDate ⟨0⟩ .undefined = .error .typeMismatch :=
  ⟨(C8_decode_date ⟨0⟩ (.number (.finite (-5)))).2.2 (-5) rfl,
   (C8_decode_date ⟨0⟩ (.number .nan)).2.1 .nan rfl rfl,
   (C8_decode_date ⟨0⟩ (.number (.inf true))).2.1 (.inf true) rfl rfl,
   (C8_decode_date ⟨0⟩ .undefined).1 (fun n h => nomatch h)⟩

/-- C9: the timestamp and text encoders are total: every host timestamp
encodes to the matching numeric script value and every host string — any
content, non-ASCII included — encodes to the matching script string. -/
theorem C9_encoders_total (rt : Runtime) (s : String) (d : NSDate) :
    NSStringToJsiValue rt s = .string s ∧
    NSDateToJsiValue rt d = .number (.finite d.epochMillis) :=
  ⟨rfl, rfl⟩

/-- C10: every host function built through the `HOSTFN` macro declares a
parameter count of `0`, whatever its body actually requires. -/
theorem C10_hostfn_declared_arity_zero (rt : Runtime) (name : String)
    (body : Runtime → ScriptValue → List ScriptValue → Except BridgeError ScriptValue) :
    (HOSTFN rt name body).paramCount = 0 :=
  rfl

end Insig8
